import Mathlib

/-!
Shallow embedding of the Shield Web Guard URL scanner (`src/src/App.tsx`).

The component's logic surface is:
  * `performSecurityChecks` — five string predicates over the raw input,
    plus a details record built from the parsed URL object, a random
    response time and a fabricated certificate;
  * `scanUrl` — try/catch wrapper: on URL-parse failure it substitutes a
    fixed sentinel result; on success it stores the result and prepends it
    to the history, truncated to 10 entries;
  * the persistence `useEffect` — re-serializes the whole history to the
    local key-value store under the key `scan-history` whenever the
    history state changes;
  * `clearHistory` — sets the history to `[]` and removes the key
    (after which the persistence effect fires again, since the history
    state changed).

JavaScript strings are modelled as Lean `String`s; the JS builtins
`startsWith` / `endsWith` / `includes` / `.length` and the regex test
`/[<>'"%;()&+]/.test` are modelled over the character list of the string.
The browser's `new URL(url)` constructor is external to the repository, so
it enters the model as a parameter `parse : String → Option URLObj`
(`none` = the constructor throws); theorems quantify over it.
`Math.random()` enters as a parameter `rand` (the value drawn from
[0,1)), `Date.now()` as `now`, and the formatted date-fns expiry string
as `expiry`. The local key-value store is modelled by the content held
under the single key `scan-history`: `none` when the key is absent,
`some l` when the key holds the serialization of the list `l`
(serialization by the external `JSON.stringify` is kept abstract: the
store records the deserialized value).
-/

namespace ShieldWebGuard

/-- Models `String.prototype.startsWith` of JavaScript. -/
def jsStartsWith (s pre : String) : Bool := pre.toList.isPrefixOf s.toList

/-- Models `String.prototype.endsWith` of JavaScript. -/
def jsEndsWith (s suf : String) : Bool := suf.toList.isSuffixOf s.toList

/-- Substring test on character lists (helper for `jsIncludes`). -/
def listIncludes (pat : List Char) : List Char → Bool
  | [] => pat.isPrefixOf []
  | c :: rest => pat.isPrefixOf (c :: rest) || listIncludes pat rest

/-- Models `String.prototype.includes` of JavaScript (substring test). -/
def jsIncludes (s pat : String) : Bool := listIncludes pat.toList s.toList

/-- Models `.length` of a JavaScript string. -/
def jsLength (s : String) : Nat := s.toList.length

/-- Models the regex test `/[<>'"%;()&+]/.test(url)`: some character of
the string lies in the class. -/
def specialChars : List Char := ['<', '>', '\'', '\"', '%', ';', '(', ')', '&', '+']

/-- The parsed URL object returned by the browser's `new URL(url)`,
restricted to the two fields the component reads. -/
structure URLObj where
  protocol : String
  hostname : String
deriving Repr, DecidableEq

/-- The optional `certificates` record of `ScanResult.details`
(`App.tsx` lines 14–18). -/
structure Certificates where
  valid : Bool
  issuer : String
  expiryDate : String
deriving Repr, DecidableEq

/-- The `details` record of `ScanResult` (`App.tsx` lines 10–19).
`responseTime` is a rational, standing for the JS number. -/
structure Details where
  protocol : String
  domain : String
  responseTime : ℚ
  certificates : Option Certificates
deriving Repr, DecidableEq

/-- The `ScanResult` interface (`App.tsx` lines 5–20); `timestamp` is the
`Date.now()` millisecond count. -/
structure ScanResult where
  url : String
  timestamp : Nat
  safe : Bool
  threats : List String
  details : Details
deriving Repr, DecidableEq

/-- `suspiciousTLDs` (`App.tsx` line 51). -/
def suspiciousTLDs : List String := [".xyz", ".tk", ".ml", ".ga", ".cf"]

/-- What `performSecurityChecks` returns (`App.tsx` lines 66–78). -/
structure CheckOutput where
  threats : List String
  details : Details
deriving Repr, DecidableEq

/-- `performSecurityChecks` (`App.tsx` lines 36–79), for an input on which
`new URL(url)` succeeded with object `urlObj`. `rand` is the value of
`Math.random()`, `expiry` the formatted expiry-date string computed by
date-fns. The five checks are over the raw string `url`, in source
order, each appending its fixed label. -/
def performSecurityChecks (url : String) (urlObj : URLObj) (rand : ℚ) (expiry : String) :
    CheckOutput :=
  let threats : List String :=
    (if !(jsStartsWith url "https://") then ["Insecure connection (non-HTTPS)"] else []) ++
    (if jsIncludes url "malware" || jsIncludes url "virus" then
       ["Potential malware detected"] else []) ++
    (if suspiciousTLDs.any (fun tld => jsEndsWith url tld) then
       ["Suspicious top-level domain detected"] else []) ++
    (if jsLength url > 100 then ["Unusually long URL detected"] else []) ++
    (if url.toList.any (fun c => specialChars.contains c) then
       ["Suspicious special characters detected"] else [])
  { threats := threats
    details :=
      { protocol := urlObj.protocol
        domain := urlObj.hostname
        responseTime := rand * 100 + 50
        certificates :=
          if jsStartsWith url "https://" then
            some { valid := true, issuer := "DigiCert Inc", expiryDate := expiry }
          else none } }

/-- The app state the claims concern: the `history` React state and the
content persisted under the localStorage key `scan-history` (`none` when
the key is absent, `some l` when it holds the serialization of `l`). -/
structure AppState where
  history : List ScanResult
  store : Option (List ScanResult)
deriving Repr, DecidableEq

/-- The persistence `useEffect` (`App.tsx` lines 32–34): whenever the
history state changes, the whole list is serialized under the key. -/
def persistEffect (s : AppState) : AppState := { s with store := some s.history }

/-- The history update of `scanUrl` (`App.tsx` line 98):
`prev => [scanResult, ...prev].slice(0, 10)`. -/
def appendScan (r : ScanResult) (h : List ScanResult) : List ScanResult :=
  (r :: h).take 10

/-- `scanUrl` (`App.tsx` lines 81–113), with the browser URL constructor
as parameter `parse` (`none` models a thrown `TypeError`). Returns the
result passed to `setResult` and the app state after the `setHistory`
update and the persistence effect it triggers. In the catch branch
neither the history nor the store changes. -/
def scanUrl (parse : String → Option URLObj) (url : String) (rand : ℚ) (now : Nat)
    (expiry : String) (s : AppState) : ScanResult × AppState :=
  match parse url with
  | some urlObj =>
      let out := performSecurityChecks url urlObj rand expiry
      let scanResult : ScanResult :=
        { url := url
          timestamp := now
          safe := out.threats.length == 0
          threats := out.threats
          details := out.details }
      (scanResult, persistEffect { s with history := appendScan scanResult s.history })
  | none =>
      ({ url := url
         timestamp := now
         safe := false
         threats := ["Invalid URL format"]
         details :=
           { protocol := "unknown"
             domain := "unknown"
             responseTime := 0
             certificates := none } }, s)

/-- The body of `clearHistory` (`App.tsx` lines 115–118):
`setHistory([])` and `localStorage.removeItem('scan-history')`. -/
def clearHistoryBody (_s : AppState) : AppState := { history := [], store := none }

/-- `clearHistory` together with the persistence effect the state change
triggers on the following render. -/
def clearHistory (s : AppState) : AppState := persistEffect (clearHistoryBody s)

/-- The state at mount (`App.tsx` lines 26–29 and the mount run of the
persistence effect): the history is deserialized from the key when
present, else `[]`. -/
def initialState (saved : Option (List ScanResult)) : AppState :=
  persistEffect { history := saved.getD [], store := saved }

/-- App states reachable through the component's operations: a fresh
mount, a scan, a history clear, or a reload from a previously persisted
store. -/
inductive Reachable : AppState → Prop
  | init : Reachable (initialState none)
  | scan (parse : String → Option URLObj) (url : String) (rand : ℚ) (now : Nat)
      (expiry : String) {s : AppState} :
      Reachable s → Reachable (scanUrl parse url rand now expiry s).2
  | clear {s : AppState} : Reachable s → Reachable (clearHistory s)
  | reload {s : AppState} : Reachable s → Reachable (initialState s.store)

/-- Iterated scan appends, oldest first (used to state the 11-append
property). -/
def appendAll (rs : List ScanResult) (h : List ScanResult) : List ScanResult :=
  rs.foldl (fun acc r => appendScan r acc) h

/-- A sample scan result, used as concrete data in witnesses. -/
def sampleResult : ScanResult :=
  { url := "https://example.com"
    timestamp := 0
    safe := true
    threats := []
    details :=
      { protocol := "https:"
        domain := "example.com"
        responseTime := 50
        certificates := none } }

/-- C1: in both branches of `scanUrl` (parse success and parse failure),
the produced result has `safe = true` exactly when its threats list is
empty. -/
theorem scan_safe_iff_no_threats (parse : String → Option URLObj) (url : String)
    (rand : ℚ) (now : Nat) (expiry : String) (s : AppState) :
    (scanUrl parse url rand now expiry s).1.safe = true ↔
      (scanUrl parse url rand now expiry s).1.threats = [] := by
  cases hp : parse url <;> simp [scanUrl, hp, List.length_eq_zero]

/-- C4: when URL parsing fails, `scanUrl` produces exactly the fixed
sentinel result: the single threat "Invalid URL format", domain and
protocol "unknown", response time 0, no certificate, `safe = false`. -/
theorem scan_parse_failure_sentinel (parse : String → Option URLObj) (url : String)
    (rand : ℚ) (now : Nat) (expiry : String) (s : AppState)
    (hp : parse url = none) :
    (scanUrl parse url rand now expiry s).1 =
      { url := url
        timestamp := now
        safe := false
        threats := ["Invalid URL format"]
        details :=
          { protocol := "unknown"
            domain := "unknown"
            responseTime := 0
            certificates := none } } := by
  simp [scanUrl, hp]

theorem scan_parse_failure_sentinel_witness :
    (scanUrl (fun _ => none) "not a url" 0 0 "" (initialState none)).1 =
      { url := "not a url"
        timestamp := 0
        safe := false
        threats := ["Invalid URL format"]
        details :=
          { protocol := "unknown"
            domain := "unknown"
            responseTime := 0
            certificates := none } } :=
  scan_parse_failure_sentinel (fun _ => none) "not a url" 0 0 "" (initialState none) rfl

/-- C6: any input that does not start with "https://" gets the insecure
connection threat. -/
theorem non_https_flags_insecure (url : String) (u : URLObj) (rand : ℚ) (expiry : String)
    (h : jsStartsWith url "https://" = false) :
    "Insecure connection (non-HTTPS)" ∈ (performSecurityChecks url u rand expiry).threats := by
  simp [performSecurityChecks, h]

theorem non_https_flags_insecure_witness :
    "Insecure connection (non-HTTPS)" ∈
      (performSecurityChecks "http://a" (URLObj.mk "http:" "a") 0 "").threats :=
  non_https_flags_insecure "http://a" (URLObj.mk "http:" "a") 0 "" (by decide)

/-- C7: any input ending with one of the suffixes `.xyz`, `.tk`, `.ml`,
`.ga`, `.cf` gets the suspicious-TLD threat. -/
theorem suspicious_tld_flagged (url : String) (u : URLObj) (rand : ℚ) (expiry : String)
    (h : ∃ tld ∈ suspiciousTLDs, jsEndsWith url tld = true) :
    "Suspicious top-level domain detected" ∈
      (performSecurityChecks url u rand expiry).threats := by
  have hb : suspiciousTLDs.any (fun tld => jsEndsWith url tld) = true :=
    List.any_eq_true.mpr h
  simp [performSecurityChecks, hb]

theorem suspicious_tld_flagged_witness :
    "Suspicious top-level domain detected" ∈
      (performSecurityChecks "http://evil.tk" (URLObj.mk "http:" "evil.tk") 0 "").threats :=
  suspicious_tld_flagged "http://evil.tk" (URLObj.mk "http:" "evil.tk") 0 ""
    ⟨".tk", by decide, by decide⟩

/-- C10: the threats list and the safe flag are functions of the input
string (and parse outcome) alone — two runs differing only in the random
response-time draw produce identical threats and safe flags. -/
theorem classifier_independent_of_random (parse : String → Option URLObj) (url : String)
    (u : URLObj) (r₁ r₂ : ℚ) (now : Nat) (expiry : String) (s : AppState) :
    (performSecurityChecks url u r₁ expiry).threats =
      (performSecurityChecks url u r₂ expiry).threats ∧
    (scanUrl parse url r₁ now expiry s).1.threats =
      (scanUrl parse url r₂ now expiry s).1.threats ∧
    (scanUrl parse url r₁ now expiry s).1.safe =
      (scanUrl parse url r₂ now expiry s).1.safe := by
  refine ⟨rfl, ?_, ?_⟩ <;> cases hp : parse url <;> simp [scanUrl, hp] <;> rfl

/-- The spec's ordered check list as a table of (condition, label)
pairs, written from the spec's wording (section 4.1), to compare with
the implementation's threats list. -/
def specCheckTable (url : String) : List (Bool × String) :=
  [ (!(jsStartsWith url "https://"), "Insecure connection (non-HTTPS)"),
    (jsIncludes url "malware" || jsIncludes url "virus", "Potential malware detected"),
    (suspiciousTLDs.any (fun tld => jsEndsWith url tld), "Suspicious top-level domain detected"),
    (decide (jsLength url > 100), "Unusually long URL detected"),
    (url.toList.any (fun c => specialChars.contains c), "Suspicious special characters detected") ]

/-- C5: the threats list is exactly the labels of the checks that fire,
in the fixed check order (no short-circuiting); and the input
`http://example.xyz` yields exactly the insecure-connection and
suspicious-TLD threats with `safe = false`. -/
theorem checks_fire_in_order (url : String) (u v : URLObj) (rand : ℚ) (now : Nat)
    (expiry : String) (parse : String → Option URLObj) (s : AppState) :
    (performSecurityChecks url u rand expiry).threats =
      ((specCheckTable url).filter (fun p => p.1)).map (fun p => p.2) ∧
    (parse "http://example.xyz" = some v →
      (scanUrl parse "http://example.xyz" rand now expiry s).1.threats =
        ["Insecure connection (non-HTTPS)", "Suspicious top-level domain detected"] ∧
      (scanUrl parse "http://example.xyz" rand now expiry s).1.safe = false) := by
  constructor
  · have hfm : ∀ (b : Bool) (l : String) (rest : List (Bool × String)),
        ((((b, l) :: rest).filter (fun p => p.1)).map (fun p => p.2)) =
          (if b then [l] else []) ++ ((rest.filter (fun p => p.1)).map (fun p => p.2)) := by
      intro b l rest
      cases b <;> simp
    simp only [performSecurityChecks, specCheckTable, hfm, List.filter_nil, List.map_nil,
      List.append_nil, decide_eq_true_eq, List.append_assoc]
  · intro hp
    refine ⟨?_, ?_⟩ <;> simp only [scanUrl, hp] <;> rfl

theorem checks_fire_in_order_witness :
    (performSecurityChecks "http://example.xyz" (URLObj.mk "http:" "example.xyz") 0 "").threats =
      ((specCheckTable "http://example.xyz").filter (fun p => p.1)).map (fun p => p.2) ∧
    (scanUrl (fun _ => some (URLObj.mk "http:" "example.xyz")) "http://example.xyz" 0 0 ""
        (initialState none)).1.threats =
      ["Insecure connection (non-HTTPS)", "Suspicious top-level domain detected"] ∧
    (scanUrl (fun _ => some (URLObj.mk "http:" "example.xyz")) "http://example.xyz" 0 0 ""
        (initialState none)).1.safe = false := by
  have h := checks_fire_in_order "http://example.xyz" (URLObj.mk "http:" "example.xyz")
    (URLObj.mk "http:" "example.xyz") 0 0 ""
    (fun _ => some (URLObj.mk "http:" "example.xyz")) (initialState none)
  exact ⟨h.1, h.2 rfl⟩

/-- C8: the details record contains a certificate exactly when the input
starts with "https://"; any certificate present has `valid = true` and
issuer "DigiCert Inc"; and `https://example.com` scans with no threats,
`safe = true` and a valid certificate. -/
theorem certificate_iff_https (url : String) (u v : URLObj) (rand : ℚ) (now : Nat)
    (expiry : String) (parse : String → Option URLObj) (s : AppState) :
    ((performSecurityChecks url u rand expiry).details.certificates.isSome =
      jsStartsWith url "https://") ∧
    (∀ c, (performSecurityChecks url u rand expiry).details.certificates = some c →
      c.valid = true ∧ c.issuer = "DigiCert Inc") ∧
    (parse "https://example.com" = some v →
      (scanUrl parse "https://example.com" rand now expiry s).1.threats = [] ∧
      (scanUrl parse "https://example.com" rand now expiry s).1.safe = true ∧
      ∃ c, (scanUrl parse "https://example.com" rand now expiry s).1.details.certificates
          = some c ∧ c.valid = true) := by
  refine ⟨?_, ?_, ?_⟩
  · cases hc : jsStartsWith url "https://" <;> simp [performSecurityChecks, hc]
  · intro c hc
    by_cases hb : jsStartsWith url "https://" = true <;>
      simp [performSecurityChecks, hb] at hc
    subst hc
    exact ⟨rfl, rfl⟩
  · intro hp
    refine ⟨?_, ?_, ⟨Certificates.mk true "DigiCert Inc" expiry, ?_, rfl⟩⟩ <;>
      simp only [scanUrl, hp] <;> rfl

theorem certificate_iff_https_witness :
    ((performSecurityChecks "https://example.com" (URLObj.mk "https:" "example.com")
        0 "2026-10-11").details.certificates.isSome =
      jsStartsWith "https://example.com" "https://") ∧
    (scanUrl (fun _ => some (URLObj.mk "https:" "example.com")) "https://example.com" 0 0
        "2026-10-11" (initialState none)).1.threats = [] ∧
    (scanUrl (fun _ => some (URLObj.mk "https:" "example.com")) "https://example.com" 0 0
        "2026-10-11" (initialState none)).1.safe = true := by
  have h := certificate_iff_https "https://example.com" (URLObj.mk "https:" "example.com")
    (URLObj.mk "https:" "example.com") 0 0 "2026-10-11"
    (fun _ => some (URLObj.mk "https:" "example.com")) (initialState none)
  exact ⟨h.1, (h.2.2 rfl).1, (h.2.2 rfl).2.1⟩

/-- C9: the suspicious-TLD check looks at the raw input string, not the
parsed hostname: when the hostname ends in a suspicious TLD but the full
string does not, the suspicious-TLD threat is absent. -/
theorem tld_check_uses_raw_string (url : String) (u : URLObj) (rand : ℚ) (expiry : String)
    (_hhost : ∃ tld ∈ suspiciousTLDs, jsEndsWith u.hostname tld = true)
    (hurl : ∀ tld ∈ suspiciousTLDs, jsEndsWith url tld = false) :
    "Suspicious top-level domain detected" ∉
      (performSecurityChecks url u rand expiry).threats := by
  have hb : (suspiciousTLDs.any fun tld => jsEndsWith url tld) = false := by
    simp only [List.any_eq_false]
    intro tld htld
    exact fun hc => absurd (hurl tld htld) (by simp [hc])
  by_cases c1 : jsStartsWith url "https://" = true <;>
  by_cases c2 : (jsIncludes url "malware" || jsIncludes url "virus") = true <;>
  by_cases c4 : jsLength url > 100 <;>
  by_cases c5 : (url.toList.any fun c => specialChars.contains c) = true <;>
    simp [performSecurityChecks, hb, c1, c2, c4, c5]

theorem tld_check_uses_raw_string_witness :
    "Suspicious top-level domain detected" ∉
      (performSecurityChecks "https://evil.xyz/path" (URLObj.mk "https:" "evil.xyz")
        0 "").threats :=
  tld_check_uses_raw_string "https://evil.xyz/path" (URLObj.mk "https:" "evil.xyz") 0 ""
    ⟨".xyz", by decide, by decide⟩ (by decide)

/-- C2 counterexample: starting from a state with one stored result,
clearing does empty the history but the persistence effect the state
change triggers re-creates the key, so the key is not absent. -/
theorem clear_leaves_key_present :
    ¬ ((clearHistory (AppState.mk [sampleResult] (some [sampleResult]))).history = [] ∧
       (clearHistory (AppState.mk [sampleResult] (some [sampleResult]))).store = none) := by
  rintro ⟨-, h⟩
  simp [clearHistory, clearHistoryBody, persistEffect] at h

/-- C2 (amended): after clear, the in-memory history is empty; the clear
operation itself removes the persisted key, but the persistence effect
it triggers re-persists the now-empty history, so once the effect
completes the key is present and holds the empty list. -/
theorem clear_empties_history (s : AppState) :
    (clearHistory s).history = [] ∧
    (clearHistoryBody s).store = none ∧
    (clearHistory s).store = some [] :=
  ⟨rfl, rfl, rfl⟩

theorem clear_empties_history_witness :
    (clearHistory (AppState.mk [sampleResult] (some [sampleResult]))).history = [] ∧
    (clearHistoryBody (AppState.mk [sampleResult] (some [sampleResult]))).store = none ∧
    (clearHistory (AppState.mk [sampleResult] (some [sampleResult]))).store = some [] :=
  clear_empties_history (AppState.mk [sampleResult] (some [sampleResult]))

lemma take_append_take {α : Type _} (a b : List α) (n : Nat) :
    (a ++ b.take n).take n = (a ++ b).take n := by
  rw [List.take_append_eq_append_take, List.take_append_eq_append_take, List.take_take,
    min_eq_left (Nat.sub_le n a.length)]

lemma appendAll_eq (rs : List ScanResult) (h : List ScanResult) (hh : h.length ≤ 10) :
    appendAll rs h = (rs.reverse ++ h).take 10 := by
  induction rs generalizing h with
  | nil => simp [appendAll, List.take_of_length_le hh]
  | cons r rs ih =>
      have h1 : ((r :: h).take 10).length ≤ 10 := by
        rw [List.length_take]
        exact min_le_left _ _
      calc appendAll (r :: rs) h = appendAll rs ((r :: h).take 10) := rfl
        _ = (rs.reverse ++ ((r :: h).take 10)).take 10 := ih _ h1
        _ = (rs.reverse ++ (r :: h)).take 10 := take_append_take _ _ _
        _ = ((r :: rs).reverse ++ h).take 10 := by simp

/-- The state part of `scanUrl` either leaves the state unchanged (parse
failure) or prepend-truncates some result and persists the new list. -/
lemma scanUrl_state (parse : String → Option URLObj) (url : String) (rand : ℚ) (now : Nat)
    (expiry : String) (s : AppState) :
    (scanUrl parse url rand now expiry s).2 = s ∨
    ∃ r, (scanUrl parse url rand now expiry s).2 =
      AppState.mk ((r :: s.history).take 10) (some ((r :: s.history).take 10)) := by
  cases hp : parse url with
  | none => exact Or.inl (by simp [scanUrl, hp])
  | some u =>
      refine Or.inr ⟨ScanResult.mk url now
        ((performSecurityChecks url u rand expiry).threats.length == 0)
        (performSecurityChecks url u rand expiry).threats
        (performSecurityChecks url u rand expiry).details, ?_⟩
      simp [scanUrl, hp, persistEffect, appendScan]

lemma reachable_inv {s : AppState} (hs : Reachable s) :
    s.history.length ≤ 10 ∧ ∀ l, s.store = some l → l.length ≤ 10 := by
  induction hs with
  | init => simp [initialState, persistEffect]
  | scan parse url rand now expiry hr ih =>
      rcases scanUrl_state parse url rand now expiry _ with he | ⟨r, he⟩
      · rw [he]
        exact ih
      · rw [he]
        refine ⟨?_, ?_⟩
        · rw [List.length_take]
          exact min_le_left _ _
        · rintro l hl
          cases hl
          rw [List.length_take]
          exact min_le_left _ _
  | clear hr ih =>
      refine ⟨Nat.zero_le _, ?_⟩
      rintro l hl
      have hl' : some ([] : List ScanResult) = some l := hl
      cases hl'
      exact Nat.zero_le _
  | reload hr ih =>
      cases hst : AppState.store _ with
      | none => simp [initialState, persistEffect, hst]
      | some l₀ =>
          have hl₀ := ih.2 l₀ hst
          constructor
          · simpa [initialState, persistEffect, hst] using hl₀
          · rintro l hl
            simp [initialState, persistEffect, hst] at hl
            subst hl
            exact hl₀

/-- C3: a scan append prepends the result and truncates to the first 10;
appending 11 results one after another to an empty history leaves
exactly the 10 most recently appended, newest first; and every reachable
history has length at most 10. -/
theorem history_prepend_truncate_bound (r : ScanResult) (h : List ScanResult)
    (rs : List ScanResult) (s : AppState) :
    appendScan r h = (r :: h).take 10 ∧
    (rs.length = 11 → appendAll rs [] = rs.reverse.take 10) ∧
    (Reachable s → s.history.length ≤ 10) := by
  refine ⟨rfl, fun _ => ?_, fun hs => (reachable_inv hs).1⟩
  simpa using appendAll_eq rs [] (by simp)

/-- Distinct sample results, concrete data for the 11-append witness. -/
def mkRes (n : Nat) : ScanResult :=
  ScanResult.mk (toString n) n true [] (Details.mk "sample:" "sample" 0 none)

theorem history_prepend_truncate_bound_witness :
    appendScan sampleResult [] = [sampleResult] ∧
    appendAll ((List.range 11).map mkRes) [] =
      ((List.range 11).map mkRes).reverse.take 10 ∧
    (initialState none).history.length ≤ 10 := by
  have h := history_prepend_truncate_bound sampleResult [] ((List.range 11).map mkRes)
    (initialState none)
  exact ⟨h.1.trans (by simp [appendScan]), h.2.1 (by simp), h.2.2 Reachable.init⟩

end ShieldWebGuard
